import Mathlib

/-!
Verification development for the wsjt-x-MCP control plane.

Shallow embedding of the repository's wire codec, CAT servers, radio-backend
client and QSO manager entry points, translated from the TypeScript source:

* `src/wsjtx/UdpSender.ts`   — outbound WSJT-X UDP encoder (`writeQString`, `sendReply`)
* `src/wsjtx/UdpListener.ts` — inbound WSJT-X UDP decoder (`readQString`)
* `src/flex/CatServer.ts`    — Kenwood TS-2000 dialect CAT server
* `src/flex/HrdCatServer.ts` — HRD binary dialect CAT server
* `src/flex/Vita49Client.ts` — FlexRadio TCP client (`handleSliceMessage`)
* `src/wsjtx/WsjtxManager.ts`— QSO manager (`executeQso`)

JavaScript `number` values are modelled as exact rationals together with an
explicit IEEE-754 binary64 rounding function `toDouble`; JavaScript strings
(sequences of UTF-16 code units) are modelled as `String` (for ASCII CAT text)
or as `List ℕ` of code units (for the binary codec).
-/

attribute [local semireducible] Rat.mul Rat.add Rat.sub Rat.inv

set_option maxRecDepth 16000

namespace WsjtxMcp

/-! ### Node `Buffer` big-endian primitives -/

/-- Bytes written by `Buffer.writeUInt16BE`. -/
def u16be (n : ℕ) : List ℕ := [n / 2 ^ 8 % 256, n % 256]

/-- Bytes written by `Buffer.writeUInt32BE`. -/
def u32be (n : ℕ) : List ℕ :=
  [n / 2 ^ 24 % 256, n / 2 ^ 16 % 256, n / 2 ^ 8 % 256, n % 256]

/-- Bytes written by `Buffer.writeUInt64BE`-style 8-byte big-endian output. -/
def u64be (n : ℕ) : List ℕ :=
  [n / 2 ^ 56 % 256, n / 2 ^ 48 % 256, n / 2 ^ 40 % 256, n / 2 ^ 32 % 256,
   n / 2 ^ 24 % 256, n / 2 ^ 16 % 256, n / 2 ^ 8 % 256, n % 256]

/-- Bytes written by `Buffer.writeInt32BE` (two's-complement big-endian). -/
def i32be (z : ℤ) : List ℕ := u32be (z % 2 ^ 32).toNat

/-- Value read by `Buffer.readUInt32BE buf off` (callers guard the bounds;
out-of-range bytes default to 0 here and are never reached under the guards). -/
def readU32BE (buf : List ℕ) (off : ℕ) : ℕ :=
  buf.getD off 0 * 2 ^ 24 + buf.getD (off + 1) 0 * 2 ^ 16 +
    buf.getD (off + 2) 0 * 2 ^ 8 + buf.getD (off + 3) 0

/-! ### IEEE-754 binary64 arithmetic, exactly

A finite double is a rational `m * 2^e`.  `normalize` scales a positive
rational into the mantissa range `[2^52, 2^53)`, `roundHalfEven` is the IEEE
default rounding, and `toDouble` is the correctly-rounded conversion used by
both JavaScript number literals / `parseFloat` and each arithmetic operation.
Subnormals, overflow and NaN are outside every value this repository computes
and are not modelled. -/

/-- Scale `q` by powers of two into `[2^52, 2^53)`, tracking the exponent.
Fuel-based structural recursion (2200 steps cover the whole binary64 range). -/
def normalize : ℕ → ℚ → ℤ → ℚ × ℤ
  | 0, q, e => (q, e)
  | fuel + 1, q, e =>
    if q < 2 ^ 52 then normalize fuel (2 * q) (e - 1)
    else if 2 ^ 53 ≤ q then normalize fuel (q / 2) (e + 1)
    else (q, e)

/-- Round to the nearest integer, ties to even (IEEE default). -/
def roundHalfEven (q : ℚ) : ℤ :=
  let f := ⌊q⌋
  let r := q - (f : ℚ)
  if r < 1 / 2 then f
  else if 1 / 2 < r then f + 1
  else if f % 2 = 0 then f else f + 1

/-- The binary64 value nearest to the real number `q` (ties to even):
the value of a JavaScript number literal, of `parseFloat` on the decimal
text whose exact value is `q`, and (applied to exact products) of `*`. -/
def toDouble (q : ℚ) : ℚ :=
  if q = 0 then 0
  else
    let s : ℚ := if q < 0 then -1 else 1
    let p := normalize 2200 |q| 0
    s * (roundHalfEven p.1 : ℚ) * (2 : ℚ) ^ p.2

/-- IEEE-754 double multiplication: correctly rounded product. -/
def fpMul (a b : ℚ) : ℚ := toDouble (a * b)

/-- The 64-bit pattern of a finite double `q` (assumed normal or zero),
as stored by `Buffer.writeDoubleBE`. -/
def f64bits (q : ℚ) : ℕ :=
  if q = 0 then 0
  else
    let s : ℕ := if q < 0 then 1 else 0
    let p := normalize 2200 |q| 0
    let m := (⌊p.1⌋).toNat
    let ex := (p.2 + 52 + 1023).toNat
    s * 2 ^ 63 + ex * 2 ^ 52 + (m - 2 ^ 52)

/-- Bytes written by `Buffer.writeDoubleBE`. -/
def f64be (q : ℚ) : List ℕ := u64be (f64bits q)

/-! ### `UdpSender.writeQString` and `UdpSender.sendReply`
(`src/wsjtx/UdpSender.ts`)

A JavaScript string is its list of UTF-16 code units.  `writeQString` emits
the null-QString sentinel `0xFFFFFFFF` for an empty (or absent) value, and
otherwise the UTF-16 byte length followed by the code units in big-endian
order (the source builds a UTF-16LE buffer and swaps the byte pairs). -/

/-- `UdpSender.writeQString` (UdpSender.ts lines 22-40), on the string's
UTF-16 code units.  An absent (`undefined`) argument behaves as the empty
string (`!value` is true for both). -/
def writeQString (s : List ℕ) : List ℕ :=
  if s = [] then [255, 255, 255, 255]
  else u32be (2 * s.length) ++ (s.map u16be).flatten

/-- Body of the type-4 Reply packet built by `UdpSender.sendReply`
(UdpSender.ts lines 68-106): time, snr, dt, df, mode, message, then the
`low_confidence` byte and finally the `modifiers` byte, both written as `0`. -/
def sendReplyBody (time : ℕ) (snr : ℤ) (dt : ℚ) (df : ℕ)
    (mode message : List ℕ) : List ℕ :=
  u32be time ++ i32be snr ++ f64be dt ++ u32be df ++
    writeQString mode ++ writeQString message ++ [0, 0]

/-! ### `WsjtxUdpListener.readQString` (`src/wsjtx/UdpListener.ts` lines 87-110) -/

/-- Big-endian 16-bit code units from a byte list (the effect of
`Buffer.swap16` followed by `toString('utf16le')`). -/
def pairsBE : List ℕ → List ℕ
  | a :: b :: rest => (a * 256 + b) :: pairsBE rest
  | _ => []

/-- `WsjtxUdpListener.readQString`: reads a 4-byte length; `0xFFFFFFFF` and
`0` decode as the empty string; an odd length is truncated to `length - 1`
payload bytes but the offset still advances past the full declared length.
`none` models the `RangeError`s thrown by `readUInt32BE` past the end of the
buffer and by `swap16` on an odd-length slice. -/
def readQString (buf : List ℕ) (off : ℕ) : Option (List ℕ × ℕ) :=
  if off + 4 ≤ buf.length then
    let len := readU32BE buf off
    let off4 := off + 4
    if len = 4294967295 ∨ len = 0 then some ([], off4)
    else
      let byteLen := if len % 2 = 0 then len else len - 1
      if byteLen = 0 then some ([], off4 + len)
      else
        let slice := (buf.drop off4).take byteLen
        if slice.length % 2 = 0 then some (pairsBE slice, off4 + len)
        else none
  else none

/-! ### JavaScript string helpers

ASCII CAT traffic is modelled with Lean `String` (one `Char` per UTF-16 code
unit, identical for ASCII).  The helpers below reproduce the exact semantics
of the JavaScript string methods the CAT servers use. -/

/-- `s.substring(a, b)`: clamp both indices to the length, swap if reversed. -/
def jsSubstring (s : String) (a b : ℕ) : String :=
  let len := s.data.length
  let a' := min a len
  let b' := min b len
  String.mk ((s.data.drop (min a' b')).take (max a' b' - min a' b'))

/-- `s.padStart(n, c)`. -/
def padStart (s : String) (n : ℕ) (c : Char) : String :=
  String.mk (List.replicate (n - s.data.length) c ++ s.data)

/-- `parseInt(s, 10)`: skip leading whitespace, optional sign, then decimal
digits; `none` models `NaN` (no digits). Trailing garbage is ignored. -/
def jsParseInt (s : String) : Option ℤ :=
  let l := s.data.dropWhile Char.isWhitespace
  let p : ℤ × List Char :=
    match l with
    | '-' :: r => (-1, r)
    | '+' :: r => (1, r)
    | _ => (1, l)
  let ds := p.2.takeWhile Char.isDigit
  if ds = [] then none
  else some (p.1 * (ds.foldl (fun acc c => 10 * acc + (c.toNat - 48)) (0 : ℕ) : ℕ))

/-! ### `CatServer` — Kenwood TS-2000 dialect (`src/flex/CatServer.ts`) -/

/-- Per-slice state held by a `CatServer` (CatServer.ts lines 9-13).
`frequency` is the Hz value (an integer wherever this server writes it:
`parseInt` on dialect-A sets, integer pushes from the radio backend). -/
structure CatSlice where
  frequency : ℤ
  mode : String
  tx : Bool
deriving DecidableEq, Repr

/-- Events a CAT server emits toward the coordinator
(`this.emit(...)` calls in both CAT server classes). -/
inductive CatEvent
  | frequencyChange (slice : ℕ) (hz : ℤ)
  | modeChange (slice : ℕ) (mode : String)
  | pttChange (slice : ℕ) (tx : Bool)
deriving DecidableEq, Repr

/-- Result of processing one dialect-A command: the new slice state, the
response written to the socket (`""` means no bytes are written), the events
emitted, and whether the handler closes the connection.  `processCommand`
contains no code path that ends or destroys the socket, which the
`closesConnection` field records. -/
structure CatResult where
  state : CatSlice
  response : String
  events : List CatEvent
  closesConnection : Bool
deriving DecidableEq, Repr

/-- `CatServer.modeToKenwood` (CatServer.ts lines 282-295): mode-map lookup
on the upper-cased mode with default `"2"` (USB). -/
def modeToKenwood (mode : String) : String :=
  let m := String.mk (mode.data.map Char.toUpper)
  if m = "LSB" then "1" else if m = "USB" then "2"
  else if m = "CW" then "3" else if m = "FM" then "4"
  else if m = "AM" then "5" else if m = "DIGL" then "6"
  else if m = "CWR" then "7" else if m = "DIGU" then "9"
  else if m = "FMN" then "4" else "2"

/-- `CatServer.kenwoodToMode` (CatServer.ts lines 300-312); `none` is the
`null` returned for unrecognised numbers. -/
def kenwoodToMode (modeNum : String) : Option String :=
  if modeNum = "1" then some "LSB" else if modeNum = "2" then some "USB"
  else if modeNum = "3" then some "CW" else if modeNum = "4" then some "FM"
  else if modeNum = "5" then some "AM" else if modeNum = "6" then some "DIGL"
  else if modeNum = "7" then some "CWR" else if modeNum = "9" then some "DIGU"
  else none

/-- `CatServer.formatFrequency`: `freq.toString().padStart(11, '0')`. -/
def formatFrequency (freq : ℤ) : String := padStart (toString freq) 11 '0'

/-- `CatServer.buildIfResponse` (CatServer.ts lines 256-277): the template
literal `` `IF${freq}     +00000000${tx}${mode}0000000 ;` ``. -/
def buildIfResponse (st : CatSlice) : String :=
  "IF" ++ formatFrequency st.frequency ++ "     +00000000" ++
    (if st.tx then "1" else "0") ++ modeToKenwood st.mode ++ "0000000 ;"

/-- `CatServer.processCommand` (CatServer.ts lines 115-243): dispatch on the
first two characters; set-forms mutate the state and emit an event with no
response, query-forms answer from the state.  Unknown commands are logged and
produce no response; no branch closes the connection. -/
def processCommand (sliceIndex : ℕ) (st : CatSlice) (cmd : String) : CatResult :=
  let cmdType := jsSubstring cmd 0 2
  let cmdData := jsSubstring cmd 2 (cmd.data.length - 1)
  if cmdType = "FA" then
    if cmdData = "" then ⟨st, "FA" ++ formatFrequency st.frequency ++ ";", [], false⟩
    else match jsParseInt cmdData with
      | some n => ⟨{ st with frequency := n }, "", [.frequencyChange sliceIndex n], false⟩
      | none => ⟨st, "", [], false⟩
  else if cmdType = "FB" then
    if cmdData = "" then ⟨st, "FB" ++ formatFrequency st.frequency ++ ";", [], false⟩
    else match jsParseInt cmdData with
      | some n => ⟨{ st with frequency := n }, "", [.frequencyChange sliceIndex n], false⟩
      | none => ⟨st, "", [], false⟩
  else if cmdType = "IF" then ⟨st, buildIfResponse st, [], false⟩
  else if cmdType = "MD" then
    if cmdData = "" then ⟨st, "MD" ++ modeToKenwood st.mode ++ ";", [], false⟩
    else match kenwoodToMode cmdData with
      | some newMode => ⟨{ st with mode := newMode }, "", [.modeChange sliceIndex newMode], false⟩
      | none => ⟨st, "", [], false⟩
  else if cmdType = "TX" then ⟨{ st with tx := true }, "", [.pttChange sliceIndex true], false⟩
  else if cmdType = "RX" then ⟨{ st with tx := false }, "", [.pttChange sliceIndex false], false⟩
  else if cmdType = "TQ" then ⟨st, "TQ" ++ (if st.tx then "1" else "0") ++ ";", [], false⟩
  else if cmdType = "AI" then
    if cmdData = "" then ⟨st, "AI0;", [], false⟩ else ⟨st, "", [], false⟩
  else if cmdType = "ID" then ⟨st, "ID019;", [], false⟩
  else if cmdType = "PS" then ⟨st, "PS1;", [], false⟩
  else if cmdType = "RS" then ⟨st, "", [], false⟩
  else if cmdType = "XT" then
    if cmdData = "" then ⟨st, "XT0;", [], false⟩ else ⟨st, "", [], false⟩
  else if cmdType = "RT" then
    if cmdData = "" then ⟨st, "RT0;", [], false⟩ else ⟨st, "", [], false⟩
  else if cmdType = "AN" then
    if cmdData = "" then ⟨st, "AN1;", [], false⟩ else ⟨st, "", [], false⟩
  else if cmdType = "FR" ∨ cmdType = "FT" then
    if cmdData = "" then ⟨st, cmdType ++ "0;", [], false⟩ else ⟨st, "", [], false⟩
  else if cmdType = "SH" ∨ cmdType = "SL" then
    if cmdData = "" then ⟨st, cmdType ++ "00;", [], false⟩ else ⟨st, "", [], false⟩
  else ⟨st, "", [], false⟩

/-- The two-character tokens `CatServer.processCommand` recognises. -/
def knownDialectA : List String :=
  ["FA", "FB", "IF", "MD", "TX", "RX", "TQ", "AI", "ID", "PS", "RS",
   "XT", "RT", "AN", "FR", "FT", "SH", "SL"]

/-- One `CatServer` per slice (`CatServerManager.servers`): delivering a
command to slice `i` runs that server's `processCommand` on its own state
and leaves every other server untouched (no cross-server code exists). -/
def applyCatCommand (sys : List CatSlice) (i : ℕ) (cmd : String) :
    List CatSlice × List CatEvent :=
  match sys.get? i with
  | some st =>
    let r := processCommand i st cmd
    (sys.set i r.state, r.events)
  | none => (sys, [])

/-! ### `HrdCatServer` — HRD dialect (`src/flex/HrdCatServer.ts`) -/

/-- `s.trim()`. -/
def trimJs (s : String) : String :=
  String.mk (((s.data.dropWhile Char.isWhitespace).reverse.dropWhile Char.isWhitespace).reverse)

/-- `s.toLowerCase()` (ASCII; all commands are ASCII). -/
def toLowerJs (s : String) : String := String.mk (s.data.map Char.toLower)

/-- `s.toUpperCase()` (ASCII). -/
def toUpperJs (s : String) : String := String.mk (s.data.map Char.toUpper)

/-- `s.startsWith(p)`. -/
def startsWithJs (s p : String) : Bool := p.data.isPrefixOf s.data

/-- `s.substring(n)`. -/
def dropFromJs (s : String) (n : ℕ) : String := String.mk (s.data.drop n)

/-- `s.replace(/[{}]/g, '')` (braces written via code points 123/125). -/
def removeBraces (s : String) : String :=
  String.mk (s.data.filter (fun c => ¬(c = Char.ofNat 123 ∨ c = Char.ofNat 125)))

/-- The prefix strip `cleanedCommand.match(/^\[(\d+)\]\s*/)` followed by
`substring(match[0].length)` (HrdCatServer.ts lines 174-178). -/
def stripRadioSelector (s : String) : String :=
  match s.data with
  | '[' :: rest =>
    let ds := rest.takeWhile Char.isDigit
    let rest2 := rest.dropWhile Char.isDigit
    if ds = [] then s
    else
      match rest2 with
      | ']' :: tail => String.mk (tail.dropWhile Char.isWhitespace)
      | _ => s
  | _ => s

/-- `s.split(c)` for a single-character separator (keeps empty pieces, like
JavaScript `split(' ')`). -/
def splitCharAux (c : Char) : List Char → List Char → List String
  | [], acc => [String.mk acc.reverse]
  | x :: xs, acc =>
    if x = c then String.mk acc.reverse :: splitCharAux c xs []
    else splitCharAux c xs (x :: acc)

/-- `s.split(' ')`. -/
def jsSplitChar (s : String) (c : Char) : List String := splitCharAux c s.data []

/-- Helper for `split(/\s+/)`: split on whitespace runs. -/
def splitWsAux : List Char → List Char → List String
  | [], acc => if acc = [] then [] else [String.mk acc.reverse]
  | x :: xs, acc =>
    if Char.isWhitespace x then
      if acc = [] then splitWsAux xs []
      else String.mk acc.reverse :: splitWsAux xs []
    else splitWsAux xs (x :: acc)

/-- `s.split(/\s+/)` on an already-trimmed string (the only way the source
uses it; on `""` JavaScript yields `[""]` while this yields `[]`, and every
use site treats the two identically). -/
def jsSplitWs (s : String) : List String := splitWsAux s.data []

/-- State held by an `HrdCatServer` (HrdCatServer.ts lines 30-33). -/
structure HrdState where
  frequency : ℤ
  mode : String
  pttState : Bool
deriving DecidableEq, Repr

/-- Result of one HRD command: new state, response string (always framed and
written back), events, and whether the handler closes the connection (no
branch of `processCommand`/`processMessage` destroys the socket). -/
structure HrdResult where
  state : HrdState
  response : String
  events : List CatEvent
  closesConnection : Bool
deriving DecidableEq, Repr

/-- `HrdCatServer.processCommand` (HrdCatServer.ts lines 172-321).  Guards
test the lower-cased, selector-stripped command; several set-command bodies
deliberately index into the *original* `command` argument, reproducing the
source.  Every unrecognized command falls through to `return 'OK'`. -/
def hrdProcessCommand (sliceLetter : String) (sliceIndex : ℕ)
    (st : HrdState) (command : String) : HrdResult :=
  let cleaned := stripRadioSelector (trimJs command)
  let lower := toLowerJs cleaned
  if lower = "get id" then ⟨st, "FlexRadio", [], false⟩
  else if lower = "get version" then ⟨st, "6.0", [], false⟩
  else if lower = "get context" then ⟨st, "1", [], false⟩
  else if lower = "get contexts" then ⟨st, "1:Slice " ++ sliceLetter, [], false⟩
  else if lower = "get radios" then ⟨st, "1:FlexRadio", [], false⟩
  else if lower = "get radio" then ⟨st, "FlexRadio", [], false⟩
  else if startsWithJs lower "set radio " then ⟨st, "OK", [], false⟩
  else if lower = "get vfo-count" then ⟨st, "1", [], false⟩
  else if lower = "get frequency" ∨ lower = "get frequency-hz" then
    ⟨st, toString st.frequency, [], false⟩
  else if lower = "get frequencies" then
    ⟨st, toString st.frequency ++ "-" ++ toString st.frequency, [], false⟩
  else if lower = "get mode" then ⟨st, st.mode, [], false⟩
  else if lower = "get buttons" then ⟨st, "TX,PTT", [], false⟩
  else if startsWithJs lower "get button-select" then
    let buttonName := removeBraces (trimJs (dropFromJs command 17))
    if toLowerJs buttonName = "tx" ∨ toLowerJs buttonName = "ptt" then
      ⟨st, if st.pttState then "1" else "0", [], false⟩
    else ⟨st, "0", [], false⟩
  else if lower = "get dropdowns" then ⟨st, "Mode", [], false⟩
  else if startsWithJs lower "get dropdown-list" then
    ⟨st, "USB,LSB,CW,AM,FM,DIGU,DIGL,DATA", [], false⟩
  else if startsWithJs lower "get dropdown-text" then
    ⟨st, "Mode: " ++ st.mode, [], false⟩
  else if lower = "get ptt" then
    ⟨st, if st.pttState then "ON" else "OFF", [], false⟩
  else if startsWithJs lower "set frequency-hz " then
    let freqStr := ((jsSplitChar command ' ').getLast?).getD ""
    match jsParseInt (if freqStr = "" then "0" else freqStr) with
    | some n =>
      if 0 < n then ⟨{ st with frequency := n }, "OK", [.frequencyChange sliceIndex n], false⟩
      else ⟨st, "OK", [], false⟩
    | none => ⟨st, "OK", [], false⟩
  else if startsWithJs lower "set frequencies-hz " then
    match jsSplitWs (trimJs (dropFromJs command 18)) with
    | p0 :: _ =>
      match jsParseInt p0 with
      | some n =>
        if 0 < n then ⟨{ st with frequency := n }, "OK", [.frequencyChange sliceIndex n], false⟩
        else ⟨st, "OK", [], false⟩
      | none => ⟨st, "OK", [], false⟩
    | [] => ⟨st, "OK", [], false⟩
  else if startsWithJs lower "set dropdown " then
    let parts := jsSplitWs (trimJs (dropFromJs command 12))
    if toLowerJs (parts.getD 0 "") = "mode" ∧ 2 ≤ parts.length then
      let newMode := toUpperJs (parts.getD 1 "")
      ⟨{ st with mode := newMode }, "OK", [.modeChange sliceIndex newMode], false⟩
    else ⟨st, "OK", [], false⟩
  else if startsWithJs lower "set button-select " then
    let parts := jsSplitWs (trimJs (dropFromJs command 18))
    let buttonName := toLowerJs (removeBraces (parts.getD 0 ""))
    let bstate := parts.getD 1 "" = "1"
    if buttonName = "tx" ∨ buttonName = "ptt" then
      ⟨{ st with pttState := bstate }, "OK", [.pttChange sliceIndex bstate], false⟩
    else ⟨st, "OK", [], false⟩
  else if startsWithJs lower "set context " then ⟨st, "OK", [], false⟩
  else ⟨st, "OK", [], false⟩

/-- The guard disjunction of `HrdCatServer.processCommand`: a command is
recognized iff some branch other than the final fall-through fires. -/
def hrdRecognizes (command : String) : Prop :=
  let cleaned := stripRadioSelector (trimJs command)
  let lower := toLowerJs cleaned
  lower = "get id" ∨ lower = "get version" ∨ lower = "get context" ∨
  lower = "get contexts" ∨ lower = "get radios" ∨ lower = "get radio" ∨
  startsWithJs lower "set radio " = true ∨ lower = "get vfo-count" ∨
  (lower = "get frequency" ∨ lower = "get frequency-hz") ∨
  lower = "get frequencies" ∨ lower = "get mode" ∨ lower = "get buttons" ∨
  startsWithJs lower "get button-select" = true ∨ lower = "get dropdowns" ∨
  startsWithJs lower "get dropdown-list" = true ∨
  startsWithJs lower "get dropdown-text" = true ∨ lower = "get ptt" ∨
  startsWithJs lower "set frequency-hz " = true ∨
  startsWithJs lower "set frequencies-hz " = true ∨
  startsWithJs lower "set dropdown " = true ∨
  startsWithJs lower "set button-select " = true ∨
  startsWithJs lower "set context " = true

/-! ### `Vita49Client.handleSliceMessage` (`src/flex/Vita49Client.ts` lines 93-156) -/

/-- A slice row of the radio-backend client (`FlexSlice` interface). -/
structure FlexSlice where
  frequency : ℚ
  mode : String
  active : Bool
  daxChannel : Option ℤ
  rxAnt : Option String
deriving DecidableEq, Repr

/-- The fresh slice object created when an unknown index is first seen
(Vita49Client.ts lines 102-109): `frequency: 0, mode: '', active: false`,
the optional fields absent. -/
def freshSlice : FlexSlice :=
  { frequency := 0, mode := "", active := false, daxChannel := none, rxAnt := none }

/-- One `key=value` token of a push message, pre-classified by the keys the
`switch` recognises.  `rfFrequency` carries the exact rational value of the
decimal text (so `parseFloat` is `toDouble` of it); `dax` carries the
`parseInt` result (`none` for `NaN`); unknown keys fall to `other`. -/
inductive SliceKV
  | rfFrequency (vMHz : ℚ)
  | mode (m : String)
  | inUse (v : String)
  | dax (n : Option ℤ)
  | rxant (s : String)
  | other
deriving DecidableEq, Repr

/-- Events emitted by `Vita49Client`. -/
inductive FlexEvent
  | sliceAdded (s : FlexSlice)
  | sliceRemoved (s : FlexSlice)
  | sliceUpdated (s : FlexSlice)
deriving DecidableEq, Repr

/-- The body of the first-pass `for` loop over `key=value` pairs
(Vita49Client.ts lines 116-141), threading the slice object and the
`inUseChanged` flag.  `RF_frequency` stores
`parseFloat(value) * 1e6` — a double product with no integer rounding. -/
def applyKV (wasActive : Bool) : FlexSlice × Bool → SliceKV → FlexSlice × Bool
  | (s, changed), .rfFrequency v => ({ s with frequency := fpMul (toDouble v) 1000000 }, changed)
  | (s, changed), .mode m => ({ s with mode := m }, changed)
  | (s, changed), .inUse v =>
    let a := v == "1"
    ({ s with active := a }, if a ≠ wasActive then true else changed)
  | (s, changed), .dax n => ({ s with daxChannel := n }, changed)
  | (s, changed), .rxant r => ({ s with rxAnt := r }, changed)
  | (s, changed), .other => (s, changed)

/-- `Vita49Client.handleSliceMessage` for one slice: create the row if absent,
merge all pairs, then emit `slice-added`/`slice-removed` on an `in_use` edge
and always `slice-updated` last (Vita49Client.ts lines 93-156). -/
def handleSliceMessage (prev : Option FlexSlice) (kvs : List SliceKV) :
    FlexSlice × List FlexEvent :=
  let slice0 := prev.getD freshSlice
  let wasActive := slice0.active
  let p := kvs.foldl (applyKV wasActive) (slice0, false)
  let lifeEvents :=
    if p.2 then
      if ¬wasActive ∧ p.1.active then [FlexEvent.sliceAdded p.1]
      else if wasActive ∧ ¬p.1.active then [FlexEvent.sliceRemoved p.1]
      else []
    else []
  (p.1, lifeEvents ++ [FlexEvent.sliceUpdated p.1])

/-- Run a sequence of push messages for one slice, concatenating the events. -/
def runSlice : Option FlexSlice → List (List SliceKV) → FlexSlice × List FlexEvent
  | st, [] => (st.getD freshSlice, [])
  | st, m :: ms =>
    let p := handleSliceMessage st m
    let rest := runSlice (some p.1) ms
    (rest.1, p.2 ++ rest.2)

/-- Project an event stream to its lifecycle skeleton: `true` per
`slice-added`, `false` per `slice-removed`, dropping `slice-updated`. -/
def lifecycleOf : List FlexEvent → List Bool
  | [] => []
  | .sliceAdded _ :: r => true :: lifecycleOf r
  | .sliceRemoved _ :: r => false :: lifecycleOf r
  | .sliceUpdated _ :: r => lifecycleOf r

/-- The `in_use` flag of the stored row (`false` while the row is absent). -/
def activeOf (st : Option FlexSlice) : Bool := (st.getD freshSlice).active

/-- The lifecycle edge across one message boundary. -/
def edgeWord (before after : Bool) : List Bool :=
  if ¬before ∧ after then [true]
  else if before ∧ ¬after then [false]
  else []

/-- The word of `in_use` edges over a message sequence, at message
granularity. -/
def transWord : Option FlexSlice → List (List SliceKV) → List Bool
  | _, [] => []
  | st, m :: ms =>
    let s' := (handleSliceMessage st m).1
    edgeWord (activeOf st) s'.active ++ transWord (some s') ms

/-! ### `WsjtxManager.executeQso` (`src/wsjtx/WsjtxManager.ts` lines 185-213) -/

/-- The `activeQsos` map, keyed by instance id; the payload stands for the
`QsoStateMachine` object bound to that id. -/
abbrev QsoMap := List (String × ℕ)

/-- `WsjtxManager.executeQso`: reject synchronously when the instance already
has an active QSO (the guard throws before any construction or mutation);
otherwise construct a machine (`fresh`), store it and start it.  The first
component is the thrown error message, the second the `activeQsos` map after
the call. -/
def executeQso (qsos : QsoMap) (instanceId : String) (fresh : ℕ) :
    Option String × QsoMap :=
  if (qsos.lookup instanceId).isSome then
    (some ("QSO already in progress for instance " ++ instanceId), qsos)
  else (none, qsos ++ [(instanceId, fresh)])

/-! ## Spec-modelled comparison definitions -/

/-- Modelled from the spec: the claimed dialect-A `IF` reply,
`"IF" + freq(11) + 5 spaces + "+00000000" + tx(1) + mode(1) + "0000  ;"`
(four zeros, two spaces, semicolon). -/
def specIfResponse (st : CatSlice) : String :=
  "IF" ++ padStart (toString st.frequency) 11 '0' ++ "     " ++ "+00000000" ++
    (if st.tx then "1" else "0") ++ modeToKenwood st.mode ++ "0000  ;"

/-- Modelled from the spec: `RF_frequency` MHz converted to Hz via `×1e6`
with rounding to the nearest integer Hz. -/
def specMHzToHz (v : ℚ) : ℚ := (round (v * 1000000) : ℤ)

/-! ## Helper lemmas -/

theorem strAppend_assoc (a b c : String) : a ++ b ++ c = a ++ (b ++ c) := by
  cases a with
  | mk da =>
    cases b with
    | mk db =>
      cases c with
      | mk dc =>
        show String.mk (da ++ db ++ dc) = String.mk (da ++ (db ++ dc))
        rw [List.append_assoc]

theorem last_of_append_pair {α : Type} (l : List α) (a b : α) :
    (l ++ [a, b]).reverse.head? = some b := by
  simp

/-! ## C1 — the Reply encoder's modifiers byte -/

/-- C1: the last byte of every Reply (type 4) body — the `modifiers` field —
is written as `0`, never `0x02`: `sendReply` emits
`writeUInt8(0, offset)` for the modifiers field. -/
theorem sendReply_modifiers_byte (time : ℕ) (snr : ℤ) (dt : ℚ) (df : ℕ)
    (mode message : List ℕ) :
    (sendReplyBody time snr dt df mode message).reverse.head? = some 0 := by
  unfold sendReplyBody
  rw [show u32be time ++ i32be snr ++ f64be dt ++ u32be df ++
        writeQString mode ++ writeQString message ++ [0, 0] =
      (u32be time ++ i32be snr ++ f64be dt ++ u32be df ++
        writeQString mode ++ writeQString message) ++ [0, 0] from by
    simp [List.append_assoc]]
  exact last_of_append_pair _ 0 0

/-! ## C2 — the dialect-A `IF` response -/

/-- C2 counterexample: at the default slice state the `IF` reply produced by
`CatServer.processCommand` differs from the spec's claimed shape (the code
ends the line with `"0000000 ;"`, not `"0000  ;"`). -/
theorem if_response_counterexample :
    (processCommand 0 ⟨14074000, "DIGU", false⟩ "IF;").response ≠
      specIfResponse ⟨14074000, "DIGU", false⟩ := by decide

/-- C2 amended: for every slice state, the dialect-A `IF` reply equals
`"IF"` + 11-digit zero-padded frequency + 5 spaces + `"+00000000"` + one
transmit digit + one mode digit + the trailing bytes `"0000000 ;"`
(seven zeros, one space, semicolon). -/
theorem if_response_shape (i : ℕ) (st : CatSlice) :
    (processCommand i st "IF;").response =
      "IF" ++ padStart (toString st.frequency) 11 '0' ++ "     " ++ "+00000000" ++
        (if st.tx then "1" else "0") ++ modeToKenwood st.mode ++ "0000000 ;" := by
  show buildIfResponse st = _
  have h : ("     +00000000" : String) = "     " ++ "+00000000" := rfl
  simp only [buildIfResponse, formatFrequency, h, strAppend_assoc]

/-! ## C4 — dialect-A `MD` sets overwrite the data flavor -/

/-- C4 counterexample: with the current mode `DIGU`, processing `MD2;` does
not leave the stored mode `DIGU` (it becomes plain `USB`). -/
theorem md2_digu_counterexample :
    (processCommand 0 ⟨14074000, "DIGU", false⟩ "MD2;").state.mode ≠ "DIGU" := by
  decide

/-- C4 amended: for every slice state — in particular when the current mode
is a data mode — `MD2;` stores plain `USB` and `MD1;` stores plain `LSB`;
`kenwoodToMode` is an unconditional table lookup and the data flavor is not
preserved. -/
theorem md_set_overwrites_mode (i : ℕ) (st : CatSlice) :
    (processCommand i st "MD2;").state.mode = "USB" ∧
    (processCommand i st "MD1;").state.mode = "LSB" :=
  ⟨rfl, rfl⟩

/-! ## C9 — `executeQso` rejects a second concurrent QSO -/

/-- C9: when the instance already has an active QSO, `executeQso` throws
synchronously with the short reason string and the `activeQsos` map is
returned unchanged — no machine is constructed and the running QSO's entry
is untouched. -/
theorem executeQso_rejects_active (qsos : QsoMap) (instanceId : String) (fresh : ℕ)
    (h : (qsos.lookup instanceId).isSome) :
    executeQso qsos instanceId fresh =
      (some ("QSO already in progress for instance " ++ instanceId), qsos) := by
  simp [executeQso, h]

/-- Witness for C9 at a concrete map holding an active QSO for `Slice-A`. -/
theorem executeQso_rejects_active_witness :
    executeQso [("Slice-A", 7)] "Slice-A" 8 =
      (some ("QSO already in progress for instance " ++ "Slice-A"), [("Slice-A", 7)]) :=
  executeQso_rejects_active [("Slice-A", 7)] "Slice-A" 8 (by decide)

/-! ## C10 — outbound empty strings use the null sentinel -/

theorem length_flatten_u16be (l : List ℕ) :
    ((l.map u16be).flatten).length = 2 * l.length := by
  induction l with
  | nil => rfl
  | cons a t ih => simp [u16be, ih]; ring

/-- C10: `UdpSender.writeQString` writes the null-QString sentinel
`FF FF FF FF` (and no payload) for the empty string, never the length-0
empty-string encoding `00 00 00 00`; and on the inbound side both encodings
decode to the empty string, so the two are indistinguishable on the wire. -/
theorem writeQString_null_sentinel :
    writeQString [] = [255, 255, 255, 255] ∧
    (∀ s : List ℕ, writeQString s ≠ [0, 0, 0, 0]) ∧
    readQString [255, 255, 255, 255] 0 = some ([], 4) ∧
    readQString [0, 0, 0, 0] 0 = some ([], 4) := by
  refine ⟨rfl, ?_, by decide, by decide⟩
  intro s
  match s with
  | [] => decide
  | a :: t =>
    intro hcontra
    have hlen := congrArg List.length hcontra
    rw [writeQString, if_neg (by simp)] at hlen
    simp only [List.length_append, length_flatten_u16be, u32be,
      List.length_cons, List.length_nil] at hlen
    omega

/-! ## C6 — `RF_frequency` parsing -/

/-- C6 counterexample: the stored frequency for the push
`RF_frequency=32.52` is the raw double product `parseFloat("32.52") * 1e6`
(which is `32520000.000000004`), not the MHz value times `1e6` rounded to
the nearest integer Hz. -/
theorem rfFrequency_rounding_counterexample :
    (handleSliceMessage none [SliceKV.rfFrequency (813 / 25)]).1.frequency ≠
      specMHzToHz (813 / 25) := by decide

/-- C6 amended: the stored frequency is `parseFloat(value) * 1e6` in IEEE-754
double arithmetic with no integer rounding.  For `RF_frequency=14.0740000`
this happens to be exactly `14074000` Hz; for `RF_frequency=32.52` it is not
the integer `32520000`. -/
theorem rfFrequency_stored_value (st : Option FlexSlice) :
    (handleSliceMessage st [SliceKV.rfFrequency (140740000 / 10000000)]).1.frequency
        = 14074000 ∧
    (handleSliceMessage st [SliceKV.rfFrequency (813 / 25)]).1.frequency
        ≠ 32520000 := by
  constructor
  · show fpMul (toDouble (140740000 / 10000000)) 1000000 = 14074000
    decide
  · show fpMul (toDouble (813 / 25)) 1000000 ≠ 32520000
    decide

/-! ## C7 — `readQString` null sentinel and odd lengths -/

/-- C7: a QString length field of `0xFFFFFFFF` decodes as the empty string,
advancing the offset by exactly 4 bytes; an odd length field `len` decodes
the first `len - 1` payload bytes (dropping the trailing byte) while the
offset advances past the full declared length. -/
theorem readQString_null_and_odd :
    (∀ (buf : List ℕ) (off : ℕ), off + 4 ≤ buf.length →
      readU32BE buf off = 4294967295 →
      readQString buf off = some ([], off + 4)) ∧
    (∀ (buf : List ℕ) (off len : ℕ), off + 4 ≤ buf.length →
      readU32BE buf off = len → len % 2 = 1 → len ≠ 4294967295 →
      off + 4 + (len - 1) ≤ buf.length →
      readQString buf off =
        some (pairsBE ((buf.drop (off + 4)).take (len - 1)), off + 4 + len)) := by
  constructor
  · intro buf off hb hlen
    rw [readQString, if_pos hb, hlen, if_pos (Or.inl rfl)]
  · intro buf off len hb hlen hodd hff hpay
    rw [readQString, if_pos hb, hlen,
      if_neg (by omega : ¬(len = 4294967295 ∨ len = 0)),
      if_neg (by omega : ¬len % 2 = 0)]
    by_cases hone : len - 1 = 0
    · rw [if_pos hone, hone]
      simp [pairsBE]
    · rw [if_neg hone]
      have hslice : ((buf.drop (off + 4)).take (len - 1)).length = len - 1 := by
        simp only [List.length_take, List.length_drop]
        omega
      rw [if_pos (by omega : ((buf.drop (off + 4)).take (len - 1)).length % 2 = 0)]

/-- Witness for C7: the null sentinel on a 4-byte buffer, and length 3 with
payload `00 41 42` decoding to the single unit `0x41` while the offset
advances to 7. -/
theorem readQString_null_and_odd_witness :
    readQString [255, 255, 255, 255] 0 = some ([], 0 + 4) ∧
    readQString [0, 0, 0, 3, 0, 65, 66] 0 =
      some (pairsBE ((([0, 0, 0, 3, 0, 65, 66] : List ℕ).drop (0 + 4)).take (3 - 1)),
        0 + 4 + 3) :=
  ⟨readQString_null_and_odd.1 [255, 255, 255, 255] 0 (by decide) (by decide),
   readQString_null_and_odd.2 [0, 0, 0, 3, 0, 65, 66] 0 3 (by decide) (by decide)
     (by decide) (by decide) (by decide)⟩

/-! ## C3 — per-slice transmit flags are not cross-cleared -/

/-- C3 counterexample: with two slices present, `TX;` on slice 0 and then
`TX;` on slice 1 leaves both stored transmit flags true — more than one
slice's stored state transmits, and the first flag was not cleared. -/
theorem tx_two_slices_counterexample :
    ¬(((applyCatCommand
          (applyCatCommand [⟨14074000, "DIGU", false⟩, ⟨7074000, "DIGU", false⟩]
            0 "TX;").1 1 "TX;").1.filter (·.tx)).length ≤ 1) := by decide

/-- C3 amended: a `TX;` on the CAT server of slice `i` sets only that
server's stored transmit flag; every other slice's stored state is left
unchanged (no cross-slice clearing exists — the single-transmitter behavior
is delegated to the radio via the global `xmit` command). -/
theorem tx_touches_only_target (sys : List CatSlice) (i j : ℕ)
    (hij : j ≠ i) (hi : i < sys.length) :
    (applyCatCommand sys i "TX;").1[j]? = sys[j]? ∧
    ∃ st, (applyCatCommand sys i "TX;").1[i]? = some st ∧ st.tx = true := by
  have hsome : sys.get? i = some sys[i] := by
    rw [List.get?_eq_getElem?]
    exact List.getElem?_eq_getElem hi
  constructor
  · rw [applyCatCommand, hsome]
    exact List.getElem?_set_ne (Ne.symm hij)
  · refine ⟨{ sys[i] with tx := true }, ?_, rfl⟩
    rw [applyCatCommand, hsome]
    show (sys.set i { sys[i] with tx := true })[i]? = _
    exact List.getElem?_set_self (by simpa using hi)

/-- Witness for C3's amended statement at a two-slice system. -/
theorem tx_touches_only_target_witness :
    (applyCatCommand [⟨14074000, "DIGU", false⟩, ⟨7074000, "DIGU", false⟩]
        0 "TX;").1[1]? = ([⟨14074000, "DIGU", false⟩, ⟨7074000, "DIGU", false⟩] :
          List CatSlice)[1]? ∧
    ∃ st, (applyCatCommand [⟨14074000, "DIGU", false⟩, ⟨7074000, "DIGU", false⟩]
        0 "TX;").1[0]? = some st ∧ st.tx = true :=
  tx_touches_only_target [⟨14074000, "DIGU", false⟩, ⟨7074000, "DIGU", false⟩]
    0 1 (by decide) (by decide)

/-! ## C5 — slice lifecycle events -/

theorem lifecycleOf_append (a b : List FlexEvent) :
    lifecycleOf (a ++ b) = lifecycleOf a ++ lifecycleOf b := by
  induction a with
  | nil => rfl
  | cons e r ih => cases e <;> simp [lifecycleOf, ih]

/-- If the `inUseChanged` flag ends false, the merged `active` flag still
equals `wasActive` (invariant of the first-pass loop). -/
theorem foldl_applyKV_active (wasActive : Bool) :
    ∀ (kvs : List SliceKV) (s : FlexSlice) (c : Bool),
      (c = false → s.active = wasActive) →
      (kvs.foldl (applyKV wasActive) (s, c)).2 = false →
      (kvs.foldl (applyKV wasActive) (s, c)).1.active = wasActive := by
  intro kvs
  induction kvs with
  | nil => intro s c h hc; exact h hc
  | cons kv rest ih =>
    intro s c h
    cases kv with
    | rfFrequency v => exact ih _ _ h
    | mode m => exact ih _ _ h
    | inUse v =>
      simp only [List.foldl_cons, applyKV]
      apply ih
      intro hc'
      by_cases ha : (v == "1") ≠ wasActive
      · rw [if_pos ha] at hc'; exact absurd hc' (by simp)
      · push_neg at ha
        exact ha
    | dax n => exact ih _ _ h
    | rxant r => exact ih _ _ h
    | other => exact ih _ _ h

/-- The lifecycle skeleton of the event list built from an
`inUseChanged` flag `c` and a merged slice `s`. -/
theorem lifecycle_ite (w : Bool) (s : FlexSlice) (c : Bool)
    (h : c = false → s.active = w) :
    lifecycleOf ((if c then
        (if ¬w = true ∧ s.active = true then [FlexEvent.sliceAdded s]
         else if w = true ∧ ¬s.active = true then [FlexEvent.sliceRemoved s]
         else []) else []) ++ [FlexEvent.sliceUpdated s]) =
      edgeWord w s.active := by
  rw [lifecycleOf_append]
  cases c with
  | false =>
    rw [h rfl, edgeWord]
    cases w <;> simp [lifecycleOf]
  | true =>
    rw [edgeWord]
    cases w <;> cases hs : s.active <;> simp [lifecycleOf, hs]

/-- Per message, the lifecycle events are exactly the edge of the stored
`in_use` flag across the message. -/
theorem handleSliceMessage_lifecycle (st : Option FlexSlice) (m : List SliceKV) :
    lifecycleOf (handleSliceMessage st m).2 =
      edgeWord (activeOf st) (handleSliceMessage st m).1.active :=
  lifecycle_ite (st.getD freshSlice).active
    (m.foldl (applyKV (st.getD freshSlice).active) (st.getD freshSlice, false)).1
    (m.foldl (applyKV (st.getD freshSlice).active) (st.getD freshSlice, false)).2
    (foldl_applyKV_active (st.getD freshSlice).active m (st.getD freshSlice) false
      (fun _ => rfl))

/-- Over a run, the lifecycle events spell out the word of message-level
`in_use` edges. -/
theorem runSlice_lifecycle (ms : List (List SliceKV)) :
    ∀ st, lifecycleOf (runSlice st ms).2 = transWord st ms := by
  induction ms with
  | nil => intro st; rfl
  | cons m rest ih =>
    intro st
    show lifecycleOf ((handleSliceMessage st m).2 ++ _) = _
    rw [lifecycleOf_append, handleSliceMessage_lifecycle, ih]
    rfl

/-- C5: (i) any push-message run whose `in_use` flag makes exactly the edge
pattern up-then-down produces exactly one `slice-added` and one
`slice-removed`, in that order; (ii) a `slice-added` event always carries
the state after merging all pairs of its message; (iii) every message —
in particular every mutation — ends with a `slice-updated` carrying the
merged state. -/
theorem slice_lifecycle_events :
    (∀ (st : Option FlexSlice) (ms : List (List SliceKV)),
        transWord st ms = [true, false] →
        lifecycleOf (runSlice st ms).2 = [true, false]) ∧
    (∀ (st : Option FlexSlice) (m : List SliceKV) (x : FlexSlice),
        FlexEvent.sliceAdded x ∈ (handleSliceMessage st m).2 →
        x = (handleSliceMessage st m).1) ∧
    (∀ (st : Option FlexSlice) (m : List SliceKV),
        ((handleSliceMessage st m).2).getLast? =
          some (FlexEvent.sliceUpdated (handleSliceMessage st m).1)) := by
  refine ⟨?_, ?_, ?_⟩
  · intro st ms h
    rw [runSlice_lifecycle]
    exact h
  · intro st m x hx
    simp only [handleSliceMessage, List.mem_append, List.mem_singleton] at hx
    rcases hx with hx | hx
    · split at hx
      · split at hx
        · simp only [List.mem_singleton, FlexEvent.sliceAdded.injEq] at hx
          exact hx
        · split at hx
          · simp at hx
          · simp at hx
      · simp at hx
    · simp at hx
  · intro st m
    show ((_ : List FlexEvent) ++ [FlexEvent.sliceUpdated _]).getLast? = _
    rw [List.getLast?_concat]
    rfl

/-- Witness for C5 at the concrete run `in_use: 0 → 1 → 0`. -/
theorem slice_lifecycle_events_witness :
    lifecycleOf (runSlice none [[SliceKV.inUse "1"], [SliceKV.inUse "0"]]).2 =
      [true, false] ∧
    { freshSlice with active := true } = (handleSliceMessage none [SliceKV.inUse "1"]).1 ∧
    ((handleSliceMessage none [SliceKV.inUse "1"]).2).getLast? =
      some (FlexEvent.sliceUpdated (handleSliceMessage none [SliceKV.inUse "1"]).1) :=
  ⟨slice_lifecycle_events.1 none [[SliceKV.inUse "1"], [SliceKV.inUse "0"]] (by decide),
   slice_lifecycle_events.2.1 none [SliceKV.inUse "1"] _ (by decide),
   slice_lifecycle_events.2.2 none [SliceKV.inUse "1"]⟩

/-! ## C8 — unknown-command handling -/

instance decHrdRecognizes (c : String) : Decidable (hrdRecognizes c) := by
  unfold hrdRecognizes
  infer_instance

/-- C8 counterexample: the HRD server answers the unrecognized command
`"hello"` with `"OK"`, which is neither `"ERROR"` nor the empty string. -/
theorem hrd_unknown_counterexample :
    ¬((hrdProcessCommand "A" 0 ⟨14074000, "USB", false⟩ "hello").response = "ERROR" ∨
      (hrdProcessCommand "A" 0 ⟨14074000, "USB", false⟩ "hello").response = "") := by
  decide

/-- C8 amended: an unrecognized command is answered with no bytes in
dialect A (and the state is unchanged, no events fire, the connection stays
open), while the HRD dialects B/C answer with the string `"OK"` (state
unchanged, no events, connection kept open). -/
theorem unknown_command_negative_ack :
    (∀ (i : ℕ) (st : CatSlice) (cmd : String),
        jsSubstring cmd 0 2 ∉ knownDialectA →
        processCommand i st cmd = ⟨st, "", [], false⟩) ∧
    (∀ (letter : String) (i : ℕ) (st : HrdState) (cmd : String),
        ¬hrdRecognizes cmd →
        hrdProcessCommand letter i st cmd = ⟨st, "OK", [], false⟩) := by
  constructor
  · intro i st cmd h
    have nFA : jsSubstring cmd 0 2 ≠ "FA" := fun e => h (by rw [e]; decide)
    have nFB : jsSubstring cmd 0 2 ≠ "FB" := fun e => h (by rw [e]; decide)
    have nIF : jsSubstring cmd 0 2 ≠ "IF" := fun e => h (by rw [e]; decide)
    have nMD : jsSubstring cmd 0 2 ≠ "MD" := fun e => h (by rw [e]; decide)
    have nTX : jsSubstring cmd 0 2 ≠ "TX" := fun e => h (by rw [e]; decide)
    have nRX : jsSubstring cmd 0 2 ≠ "RX" := fun e => h (by rw [e]; decide)
    have nTQ : jsSubstring cmd 0 2 ≠ "TQ" := fun e => h (by rw [e]; decide)
    have nAI : jsSubstring cmd 0 2 ≠ "AI" := fun e => h (by rw [e]; decide)
    have nID : jsSubstring cmd 0 2 ≠ "ID" := fun e => h (by rw [e]; decide)
    have nPS : jsSubstring cmd 0 2 ≠ "PS" := fun e => h (by rw [e]; decide)
    have nRS : jsSubstring cmd 0 2 ≠ "RS" := fun e => h (by rw [e]; decide)
    have nXT : jsSubstring cmd 0 2 ≠ "XT" := fun e => h (by rw [e]; decide)
    have nRT : jsSubstring cmd 0 2 ≠ "RT" := fun e => h (by rw [e]; decide)
    have nAN : jsSubstring cmd 0 2 ≠ "AN" := fun e => h (by rw [e]; decide)
    have nFRT : ¬(jsSubstring cmd 0 2 = "FR" ∨ jsSubstring cmd 0 2 = "FT") := by
      rintro (e | e) <;> exact h (by rw [e]; decide)
    have nSHL : ¬(jsSubstring cmd 0 2 = "SH" ∨ jsSubstring cmd 0 2 = "SL") := by
      rintro (e | e) <;> exact h (by rw [e]; decide)
    simp only [processCommand, if_neg nFA, if_neg nFB, if_neg nIF, if_neg nMD,
      if_neg nTX, if_neg nRX, if_neg nTQ, if_neg nAI, if_neg nID, if_neg nPS,
      if_neg nRS, if_neg nXT, if_neg nRT, if_neg nAN, if_neg nFRT, if_neg nSHL]
  · intro letter i st cmd h
    simp only [hrdRecognizes, not_or] at h
    obtain ⟨h1, h2, h3, h4, h5, h6, h7, h8, h9, h10, h11, h12, h13, h14, h15,
      h16, h17, h18, h19, h20, h21, h22⟩ := h
    obtain ⟨h9a, h9b⟩ := h9
    simp only [hrdProcessCommand, if_neg h1, if_neg h2, if_neg h3, if_neg h4,
      if_neg h5, if_neg h6, if_neg h7, if_neg h8,
      if_neg (not_or.mpr ⟨h9a, h9b⟩), if_neg h10, if_neg h11, if_neg h12,
      if_neg h13, if_neg h14, if_neg h15, if_neg h16, if_neg h17, if_neg h18,
      if_neg h19, if_neg h20, if_neg h21, if_neg h22]

/-- Witness for C8's amended statement at concrete unknown commands. -/
theorem unknown_command_negative_ack_witness :
    processCommand 0 ⟨14074000, "DIGU", false⟩ "ZZ;" =
      ⟨⟨14074000, "DIGU", false⟩, "", [], false⟩ ∧
    hrdProcessCommand "A" 0 ⟨14074000, "USB", false⟩ "hello" =
      ⟨⟨14074000, "USB", false⟩, "OK", [], false⟩ :=
  ⟨unknown_command_negative_ack.1 0 ⟨14074000, "DIGU", false⟩ "ZZ;" (by decide),
   unknown_command_negative_ack.2 "A" 0 ⟨14074000, "USB", false⟩ "hello" (by decide)⟩

end WsjtxMcp
